import Mathlib

/-!
Verification development for the aaron-sql schema-reconciliation library.

The Go source is shallowly embedded: each Lean definition mirrors one Go
function (named in its doc comment).  Go `map[string]string` values are
modelled as association lists, Go slices as `List`, Go errors as
`Except String` or `Option String`, and the external SQL execution
primitive as an explicit catalog state (`DBState`) updated per statement.
Strings are treated as ASCII identifiers, so Go byte-wise operations
(lexicographic sort, `len`, slicing) agree with Lean's character-wise ones.
-/

namespace AaronSql

/-- Go `map[string]string` (struct-tag metadata), as an association list
with unique keys; lookup returns the first binding. -/
abbrev TagMap := List (String × String)

/-- Go map read `tag[k]` returning `(value, ok)`. -/
def tagGet (m : TagMap) (k : String) : Option String :=
  (m.find? (fun p => p.1 == k)).map (fun p => p.2)

/-- The `reflect.Kind` cases distinguished by `GetColumnDefinitionByType`
(after unwrapping one pointer level).  `otherSlice` / `otherStruct` /
`otherKind` stand for the unsupported shapes, carrying the Go type name
used in the error message. -/
inductive FieldKind where
  | str | i8 | i16 | i32 | iInt | i64
  | u8 | u16 | u32 | uInt | u64
  | f32 | f64 | boolK
  | byteSlice | otherSlice (s : String)
  | timeStruct | otherStruct (s : String)
  | otherKind (s : String)
  deriving DecidableEq, Repr

/-- `BaseColumn` (db_postgres.go): the shared structural fields of a column.
`PostgresColumn` and `MariaDBColumn` embed it without overriding any field,
so one structure serves all dialects. -/
structure BaseColumn where
  name : String
  oldName : String := ""
  sqlType : String
  defaultString : String := ""
  isPointer : Bool := false
  isNullable : Bool := false
  isPrimaryKey : Bool := false
  isUnique : Bool := false
  isIndex : Bool := false
  isAllowZero : Bool := false
  tags : TagMap := []
  columnIndex : Int := -1
  deriving DecidableEq, Repr

/-- `BaseColumn.IsAutoIncrement` always returns `false`, and
`BaseColumn.SetAutoIncrement` is a no-op; neither dialect column type
overrides them, so every column reports non-auto-increment. -/
def BaseColumn.IsAutoIncrement (_ : BaseColumn) : Bool := false

/-- Lexicographic comparison of character sequences: the order
`sort.Strings` uses (byte-wise in Go, identical on ASCII). -/
def charListLe : List Char → List Char → Bool
  | [], _ => true
  | _ :: _, [] => false
  | a :: as, b :: bs => if a = b then charListLe as bs else decide (a < b)

/-- Go string comparison `a <= b`. -/
def goStrLe (a b : String) : Bool :=
  charListLe a.data b.data

theorem charListLe_total : ∀ a b : List Char,
    charListLe a b = true ∨ charListLe b a = true
  | [], _ => Or.inl rfl
  | _ :: _, [] => Or.inr rfl
  | a :: as, b :: bs => by
    by_cases hab : a = b
    · subst hab
      simpa [charListLe] using charListLe_total as bs
    · rcases lt_or_gt_of_ne hab with h | h
      · exact Or.inl (by simp [charListLe, hab, h])
      · exact Or.inr (by simp [charListLe, Ne.symm hab, h])

theorem charListLe_trans : ∀ a b c : List Char,
    charListLe a b = true → charListLe b c = true → charListLe a c = true
  | [], _, _, _, _ => rfl
  | _ :: _, [], _, h1, _ => by simp [charListLe] at h1
  | _ :: _, _ :: _, [], _, h2 => by simp [charListLe] at h2
  | a :: as, b :: bs, c :: cs, h1, h2 => by
    by_cases hab : a = b <;> by_cases hbc : b = c
    · subst hab; subst hbc
      simp only [charListLe, if_pos rfl] at h1 h2 ⊢
      exact charListLe_trans as bs cs h1 h2
    · subst hab
      simpa [charListLe, hbc] using h2
    · subst hbc
      simpa [charListLe, hab] using h1
    · simp only [charListLe, if_neg hab, decide_eq_true_eq] at h1
      simp only [charListLe, if_neg hbc, decide_eq_true_eq] at h2
      have hac : a < c := lt_trans h1 h2
      simp [charListLe, ne_of_lt hac, hac]

theorem charListLe_antisymm : ∀ a b : List Char,
    charListLe a b = true → charListLe b a = true → a = b
  | [], [], _, _ => rfl
  | [], _ :: _, _, h2 => by simp [charListLe] at h2
  | _ :: _, [], h1, _ => by simp [charListLe] at h1
  | a :: as, b :: bs, h1, h2 => by
    by_cases hab : a = b
    · subst hab
      simp only [charListLe, if_pos rfl] at h1 h2
      exact congrArg _ (charListLe_antisymm as bs h1 h2)
    · simp only [charListLe, if_neg hab, decide_eq_true_eq] at h1
      simp only [charListLe, if_neg (Ne.symm hab), decide_eq_true_eq] at h2
      exact absurd h2 (not_lt_of_lt h1)

instance : IsTotal String (fun a b => goStrLe a b = true) :=
  ⟨fun a b => charListLe_total a.data b.data⟩

instance : IsTrans String (fun a b => goStrLe a b = true) :=
  ⟨fun a b c => charListLe_trans a.data b.data c.data⟩

instance : IsAntisymm String (fun a b => goStrLe a b = true) :=
  ⟨fun a b h1 h2 => by
    cases a; cases b
    exact congrArg String.mk (charListLe_antisymm _ _ h1 h2)⟩

/-- `sort.Strings` (Go standard library): lexicographic ascending sort. -/
def sortStrings (l : List String) : List String :=
  List.insertionSort (fun a b => goStrLe a b = true) l

/-- The data a `TableIndex` reads through its non-owning back-reference
`i.table`: the Go struct type's name (`i.table.ConstructType().Name()`)
and the table's own name (`i.table.Name()`). -/
structure TableRef where
  structTypeName : String
  tableName : String
  deriving DecidableEq, Repr

/-- `TableIndex` (db_postgres.go, second draft): name, column sequence,
uniqueness, and the owning-table back-reference. -/
structure TableIndex where
  name : String
  columns : List String
  isUnique : Bool
  table : TableRef
  deriving DecidableEq, Repr

/-- `NewTableIndex` (db_postgres.go): sorts the column names
lexicographically (`sort.Strings(cols)`) before storing them. -/
def NewTableIndex (table : TableRef) (name : String) (cols : List String)
    (unique : Bool) : TableIndex :=
  { name := name, columns := sortStrings cols, isUnique := unique, table := table }

/-- `IndexLimit` (db_postgres.go). -/
def IndexLimit : Nat := 64

/-- Go string slicing `s[:n]` (byte-wise; identical to character-wise
truncation for the ASCII identifiers used here). -/
def goTruncate (s : String) (n : Nat) : String :=
  String.mk (s.data.take n)

/-- `TableIndex.Name` (db_postgres.go): an explicitly named index keeps its
name; otherwise the default is built from the owning struct type's name and
the first stored column, truncated to `IndexLimit` characters when longer.
(`i.columns[0]` on an empty column list would panic in Go; the non-empty
invariant is kept by every constructor, and we model the access as `headD`.) -/
def TableIndex.Name (i : TableIndex) : String :=
  if i.name ≠ "" then i.name
  else
    let idxName := "idx_" ++ i.table.structTypeName ++ "_" ++ i.columns.headD ""
    if idxName.length > IndexLimit then goTruncate idxName IndexLimit else idxName

/-- `TableIndex.IsIdentical` (db_postgres.go): false when the lengths
differ; otherwise sorts the given names and compares them element-wise
against the stored (already sorted) column sequence. -/
def TableIndex.IsIdentical (i : TableIndex) (columns : List String) : Bool :=
  if i.columns.length ≠ columns.length then false
  else i.columns == sortStrings columns

/-- The `DBInterface` capability and identity surface used by `Table`
operations.  `name` models `Name() DBName` (`"postgres"` / `"mariadb"`). -/
structure Dialect where
  name : String
  canInsert : Bool
  canInsertOrUpdate : Bool
  canUpdate : Bool
  canReturnRowsAffected : Bool
  canRenameTable : Bool
  deriving DecidableEq, Repr

/-- `PostgresDataBase`: all capability methods return `true`. -/
def postgresDialect : Dialect :=
  { name := "postgres", canInsert := true, canInsertOrUpdate := true,
    canUpdate := true, canReturnRowsAffected := true, canRenameTable := true }

/-- `MariaDBDataBase`: all capability methods return `true`. -/
def mariadbDialect : Dialect :=
  { name := "mariadb", canInsert := true, canInsertOrUpdate := true,
    canUpdate := true, canReturnRowsAffected := true, canRenameTable := true }

/-- `Table` (table.go, final draft): the aggregate schema unit.
`structTypeName` models `structType.Name()`; the dialect handle `db` is
carried by value (capabilities and name are all `Sync`/`Insert` consult). -/
structure Table where
  structTypeName : String
  name : String
  columns : List BaseColumn
  indexes : List TableIndex
  db : Dialect
  deriving DecidableEq, Repr

/-- The back-reference data a `TableIndex` keeps for its owning table. -/
def Table.ref (t : Table) : TableRef :=
  ⟨t.structTypeName, t.name⟩

/-- `Table.addIndexWithName` (table.go): returns `false` without change when
some existing index `IsIdentical` to the given columns, else appends a new
`NewTableIndex` and returns `true`. -/
def Table.addIndexWithName (t : Table) (name : String) (unique : Bool)
    (cols : List String) : Table × Bool :=
  if t.indexes.any (fun i => i.IsIdentical cols) then (t, false)
  else ({ t with indexes := t.indexes ++ [NewTableIndex t.ref name cols unique] }, true)

/-- `Table.AddIndex` (table.go): `addIndexWithName` with an empty name. -/
def Table.AddIndex (t : Table) (unique : Bool) (cols : List String) :
    Table × Bool :=
  t.addIndexWithName "" unique cols

/-- `strconv.Atoi` (Go standard library): optional sign followed by at
least one decimal digit; anything else is an error. -/
def goAtoi (s : String) : Except String Int :=
  let signAndDigits : Bool × List Char :=
    match s.data with
    | '-' :: rest => (true, rest)
    | '+' :: rest => (false, rest)
    | l => (false, l)
  let ds := signAndDigits.2
  if ds.isEmpty then Except.error "invalid syntax"
  else
    match ds.foldl (fun acc c =>
        match acc with
        | none => none
        | some n => if c.isDigit then some (n * 10 + (c.toNat - 48)) else none)
        (some 0) with
    | none => Except.error "invalid syntax"
    | some n => Except.ok (if signAndDigits.1 then -(n : Int) else (n : Int))

/-- `strings.Split(s, ",")` (Go standard library, non-empty separator):
splits at every comma, keeping empty parts. -/
def splitCommaAux : List Char → List Char → List String
  | [], acc => [String.mk acc.reverse]
  | c :: rest, acc =>
      if c = ',' then String.mk acc.reverse :: splitCommaAux rest []
      else splitCommaAux rest (c :: acc)

/-- `strings.Split(s, ",")`. -/
def splitComma (s : String) : List String :=
  splitCommaAux s.data []

/-- `strings.HasPrefix`. -/
def strStarts (s pre : String) : Bool :=
  s.data.take pre.data.length == pre.data

/-- `strings.TrimPrefix` specialised to a checked prefix: drop its length. -/
def strDropChars (s : String) (n : Nat) : String :=
  String.mk (s.data.drop n)

/-- The per-column parse of an `index` tag value inside
`Table.constructIndex` (table.go): split on `","`; a part with the
`priority:` marker sets the priority through `strconv.Atoi` (error on a
malformed value), any other part sets the index name (last one wins); an
empty final name defaults to `<column>_index`. -/
def constructIndexParseTag (indexTag : String) (colName : String) :
    Except String (String × Int) := do
  let r ← (splitComma indexTag).foldlM (fun (acc : String × Int) part =>
    if strStarts part "priority:" then
      match goAtoi (strDropChars part "priority:".length) with
      | Except.error _ =>
          Except.error ("invalid priority value in index tag: " ++ part)
      | Except.ok p => Except.ok (acc.1, p)
    else Except.ok (part, acc.2)) ("", 0)
  let idxName := if r.1 == "" then colName ++ "_index" else r.1
  Except.ok (idxName, r.2)

/-- Go map assignment `m[k] = v`: replace the binding when the key is
present, otherwise add it.  (Go map iteration order is unspecified; this
model fixes first-insertion order.) -/
def mapSet {α : Type} (m : List (String × α)) (k : String) (v : α) :
    List (String × α) :=
  if m.any (fun p => p.1 == k) then
    m.map (fun p => if p.1 == k then (k, v) else p)
  else m ++ [(k, v)]

/-- Go map read `colMap[c]` with the zero value `0` for a missing key. -/
def colMapGet (colMap : List (String × Int)) (c : String) : Int :=
  ((colMap.find? (fun p => p.1 == c)).map (fun p => p.2)).getD 0

/-- One comparison/swap of the priority-ordering loop in
`Table.constructIndex`: swap `cols[i]` and `cols[j]` when the priority of
`cols[i]` is lower. -/
def prioritySwapStep (colMap : List (String × Int)) (cols : List String)
    (i j : Nat) : List String :=
  if colMapGet colMap (cols.getD i "") < colMapGet colMap (cols.getD j "") then
    (cols.set i (cols.getD j "")).set j (cols.getD i "")
  else cols

/-- The double loop in `Table.constructIndex` that orders a composite
index's columns by descending priority (`for i; for j > i; swap if
lower-priority first`).  The list length is invariant under `set`, so the
bound computed once equals Go's per-iteration `len(cols)`. -/
def prioritySort (colMap : List (String × Int)) (cols : List String) :
    List String :=
  let n := cols.length
  (List.range n).foldl (fun acc i =>
    (List.range n).foldl (fun acc2 j =>
      if i < j then prioritySwapStep colMap acc2 i j else acc2) acc) cols

/-- `Table.constructIndex` (table.go, final draft): walks the columns; an
`index` tag inserts a FRESH single-entry column/priority map at the index
name (`indexNameAndColsAndPriority[idxName] = map[string]int{col.Name():
priority}`, replacing any previous entry for that name); a `unique` tag
equal to `"true"` or `"1"` appends a single-column unique index named
`<column>_unique`.  Afterwards each surviving map entry becomes one
non-unique index whose columns are ordered by descending priority. -/
def Table.constructIndex (t : Table) : Except String Table := do
  let r ← t.columns.foldlM
    (fun (acc : List TableIndex × List (String × List (String × Int))) col => do
      let m ← (match tagGet col.tags "index" with
        | none => Except.ok acc.2
        | some indexTag => do
            let p ← constructIndexParseTag indexTag col.name
            Except.ok (mapSet acc.2 p.1 [(col.name, p.2)]))
      let indexs :=
        match tagGet col.tags "unique" with
        | some v =>
            if v == "true" || v == "1" then
              acc.1 ++ [NewTableIndex t.ref (col.name ++ "_unique") [col.name] true]
            else acc.1
        | none => acc.1
      Except.ok (indexs, m))
    ([], [])
  let named := r.2.map (fun p =>
    NewTableIndex t.ref p.1 (prioritySort p.2 (p.2.map (fun q => q.1))) false)
  Except.ok { t with indexes := r.1 ++ named }

/-- `strconv.ParseBool` with the error discarded (`b, _ :=`): the listed
true spellings give `true`, everything else (including parse errors)
gives the zero value `false`. -/
def goParseBool (v : String) : Bool :=
  v == "1" || v == "t" || v == "T" || v == "TRUE" || v == "true" || v == "True"

/-- The boolean-tag test used by the converged column constructors
(part_000 and part_003): the key is present with value `""`, `"true"` or
`"1"`. -/
def tagTruthy (m : TagMap) (k : String) : Bool :=
  match tagGet m k with
  | some v => v == "" || v == "true" || v == "1"
  | none => false

/-- `NewBaseColumn` (db_postgres.go): the shared column constructor.  Note
the explicit enforcement `if isPrimaryKey { isNullable = false }`. -/
def NewBaseColumn (name : String) (sqltype : String) (tagmap : TagMap)
    (isPointer : Bool) : BaseColumn :=
  let name := (tagGet tagmap "name").getD name
  let defaultStr := (tagGet tagmap "default").getD ""
  let isNullable0 :=
    match tagGet tagmap "nullable" with
    | some v => goParseBool v
    | none => true
  let boolTag := fun k =>
    match tagGet tagmap k with
    | some v => if v == "" || v == "true" || v == "1" then true else goParseBool v
    | none => false
  let isPrimaryKey := boolTag "primary"
  let isNullable := if isPrimaryKey then false else isNullable0
  { name := name, sqlType := sqltype, defaultString := defaultStr,
    isPointer := isPointer, isNullable := isNullable,
    isPrimaryKey := isPrimaryKey, isUnique := boolTag "unique",
    isIndex := boolTag "index", isAllowZero := boolTag "allow_zero",
    tags := tagmap, columnIndex := -1, oldName := "" }

/-- The type switch of `PostgresDataBase.GetColumnDefinitionByType`
(part_000): PostgreSQL has no unsigned types, so every unsigned kind maps
to the next wider signed type and `uint64` saturates at `BIGINT`. -/
def pgSqlTypeForKind : FieldKind → Except String String
  | .str => Except.ok "TEXT"
  | .i8 => Except.ok "SMALLINT"
  | .i16 => Except.ok "SMALLINT"
  | .i32 => Except.ok "INTEGER"
  | .iInt => Except.ok "INTEGER"
  | .i64 => Except.ok "BIGINT"
  | .u8 => Except.ok "SMALLINT"
  | .u16 => Except.ok "INTEGER"
  | .u32 => Except.ok "BIGINT"
  | .uInt => Except.ok "BIGINT"
  | .u64 => Except.ok "BIGINT"
  | .f32 => Except.ok "REAL"
  | .f64 => Except.ok "DOUBLE PRECISION"
  | .boolK => Except.ok "BOOLEAN"
  | .byteSlice => Except.ok "BYTEA"
  | .otherSlice s => Except.error ("unsupported slice type: " ++ s)
  | .timeStruct => Except.ok "TIMESTAMP WITH TIME ZONE"
  | .otherStruct s => Except.error ("unsupported struct type: " ++ s)
  | .otherKind s => Except.error ("unsupported field type: " ++ s)

/-- `PostgresDataBase.GetColumnDefinitionByType` (part_000): the type
switch, then the tag processing.  `isPointer` is passed by the caller as
`field.Type.Kind() == reflect.Ptr`, which coincides with the function's own
pointer unwrapping.  Unlike `NewBaseColumn` and the MariaDB constructor,
this function never forces a primary-key column to be non-nullable. -/
def PostgresDataBase.GetColumnDefinitionByType (kind : FieldKind)
    (columnName : String) (tag : TagMap) (isPointer : Bool) :
    Except String BaseColumn :=
  (pgSqlTypeForKind kind).map (fun st =>
    { name := (tagGet tag "name").getD columnName
      sqlType := st
      defaultString := (tagGet tag "default").getD ""
      isPointer := isPointer
      isNullable := tagTruthy tag "nullable"
      isPrimaryKey := tagTruthy tag "primary"
      isUnique := tagTruthy tag "unique"
      isIndex := tagTruthy tag "index"
      isAllowZero := tagTruthy tag "allow_zero"
      tags := tag
      columnIndex := -1 })

/-- The type switch of `MariaDBDataBase.GetColumnDefinitionByType`
(part_003): strings honour a `length` tag, unsigned kinds map to native
`UNSIGNED` types. -/
def mariaSqlTypeForKind (tag : TagMap) : FieldKind → Except String String
  | .str =>
      match tagGet tag "length" with
      | some len => Except.ok ("VARCHAR(" ++ len ++ ")")
      | none => Except.ok "TEXT"
  | .i8 => Except.ok "TINYINT"
  | .i16 => Except.ok "SMALLINT"
  | .i32 => Except.ok "INT"
  | .iInt => Except.ok "INT"
  | .i64 => Except.ok "BIGINT"
  | .u8 => Except.ok "TINYINT UNSIGNED"
  | .u16 => Except.ok "SMALLINT UNSIGNED"
  | .u32 => Except.ok "INT UNSIGNED"
  | .uInt => Except.ok "INT UNSIGNED"
  | .u64 => Except.ok "BIGINT UNSIGNED"
  | .f32 => Except.ok "FLOAT"
  | .f64 => Except.ok "DOUBLE"
  | .boolK => Except.ok "BOOLEAN"
  | .byteSlice => Except.ok "LONGBLOB"
  | .otherSlice s => Except.error ("unsupported slice type: " ++ s)
  | .timeStruct => Except.ok "DATETIME"
  | .otherStruct s => Except.error ("unsupported struct type: " ++ s)
  | .otherKind s => Except.error ("unsupported field type: " ++ s)

/-- `MariaDBDataBase.GetColumnDefinitionByType` (part_003): nullability
starts from the pointer flag, is overridden by an explicit `nullable` tag,
and is forced to `false` for a primary key (`// Primary keys cannot be
null`).  The `SetAutoIncrement` call in the source dispatches to
`BaseColumn.SetAutoIncrement`, which is a no-op. -/
def MariaDBDataBase.GetColumnDefinitionByType (kind : FieldKind)
    (columnName : String) (tag : TagMap) (isPointer : Bool) :
    Except String BaseColumn :=
  (mariaSqlTypeForKind tag kind).map (fun st =>
    let nullable1 :=
      match tagGet tag "nullable" with
      | some v =>
          if v == "" || v == "true" || v == "1" then true
          else if v == "false" || v == "0" then false
          else isPointer
      | none => isPointer
    let primary := tagTruthy tag "primary"
    { name := (tagGet tag "name").getD columnName
      sqlType := st
      defaultString := (tagGet tag "default").getD ""
      isPointer := isPointer
      isNullable := if primary then false else nullable1
      isPrimaryKey := primary
      isUnique := tagTruthy tag "unique"
      isIndex := tagTruthy tag "index"
      isAllowZero := tagTruthy tag "allow_zero"
      tags := tag
      columnIndex := -1 })

/-- A DDL/DML statement as emitted by `Table.Sync`, `Table.Insert` and
`Table.Drop`.  Each constructor carries exactly the data substituted into
the corresponding dialect SQL template (`GetCreateTableSQL`,
`CreateIndexSqlTemplate` with its `CREATE UNIQUE INDEX` rewrite,
`DropIndexSqlTemplate`, `CreateColumnSqlTemplate`,
`UpdateColumnSqlTemplate`, `InsertSqlTemplate`, `DropTableSql`).
`dropColumn` exists in no template and is never emitted; it is included so
that non-destructiveness is a statement about this type, not a vacuity. -/
inductive Stmt where
  | createTable (tableName : String) (cols : List BaseColumn)
  | createIndex (indexName tableName : String) (cols : List String) (unique : Bool)
  | dropIndex (indexName tableName : String)
  | addColumn (tableName colName colType : String)
  | alterColumnType (tableName colName colType : String)
  | dropColumn (tableName colName : String)
  | dropTable (tableName : String)
  | insertRow (tableName : String) (cols : List String) (values : List String)
  deriving DecidableEq, Repr

/-- One column of the live catalog, as the `information_schema.columns`
query of either dialect reports it. -/
structure LiveColumn where
  name : String
  sqlType : String
  isNullable : Bool
  defaultString : String
  isPrimaryKey : Bool := false
  deriving DecidableEq, Repr

/-- One index of the live catalog, as MariaDB's
`INFORMATION_SCHEMA.STATISTICS` query reports it (name, member columns in
sequence order, uniqueness). -/
structure LiveIndex where
  name : String
  columns : List String
  isUnique : Bool
  deriving DecidableEq, Repr

/-- The live schema of one table in the external database. -/
structure LiveTable where
  columns : List LiveColumn
  indexes : List LiveIndex
  deriving DecidableEq, Repr

/-- The external database catalog: table name to live schema.  This models
the external synchronous SQL collaborator; executing a rendered DDL
statement updates it and the introspection queries read it.  The catalog
is idealized to store the rendered attribute strings verbatim. -/
abbrev DBState := List (String × LiveTable)

/-- Catalog lookup by table name. -/
def dbLookup (cat : DBState) (n : String) : Option LiveTable :=
  (cat.find? (fun p => p.1 == n)).map (fun p => p.2)

/-- Catalog update at a table name (add or replace). -/
def dbSet (cat : DBState) (n : String) (tb : LiveTable) : DBState :=
  if cat.any (fun p => p.1 == n) then
    cat.map (fun p => if p.1 == n then (n, tb) else p)
  else cat ++ [(n, tb)]

/-- An introspected live column as a `BaseColumn` value, exactly the
fields both dialects' row scans populate. -/
def introColumn (c : LiveColumn) : BaseColumn :=
  { name := c.name, sqlType := c.sqlType, isNullable := c.isNullable,
    defaultString := c.defaultString, isPrimaryKey := c.isPrimaryKey }

/-- An introspected live index as a `TableIndex` value: built by struct
literal in part_003 (columns in sequence order, NOT re-sorted, table
back-reference nil — modelled as empty strings, never read because the
catalog name is non-empty). -/
def introIndex (i : LiveIndex) : TableIndex :=
  { name := i.name, columns := i.columns, isUnique := i.isUnique,
    table := ⟨"", ""⟩ }

/-- `PostgresDataBase.GetTableDDL`, earlier draft (db_postgres.go lines
214-270): when the column query returns no rows the function returns a
NON-nil error `"no columns found for table <name>"`. -/
def PostgresDataBase.GetTableDDLEarlyDraft (cat : DBState) (tableName : String) :
    Except String (Option Table) :=
  let cols := ((dbLookup cat tableName).map (fun tb => tb.columns)).getD []
  if cols.isEmpty then
    Except.error ("no columns found for table " ++ tableName)
  else
    Except.ok (some
      { structTypeName := "", name := tableName,
        columns := cols.map introColumn, indexes := [], db := postgresDialect })

/-- `PostgresDataBase.GetTableDDL`, converged draft (part_000 lines
239-303): when the column query returns no rows the function returns
`nil, nil` (`// Table doesn't exist`).  Only columns are introspected —
this driver issues NO index query, so the returned table always has an
empty index set. -/
def PostgresDataBase.GetTableDDL (cat : DBState) (tableName : String) :
    Except String (Option Table) :=
  let cols := ((dbLookup cat tableName).map (fun tb => tb.columns)).getD []
  if cols.isEmpty then Except.ok none
  else
    Except.ok (some
      { structTypeName := "", name := tableName,
        columns := cols.map introColumn, indexes := [], db := postgresDialect })

/-- `MariaDBDataBase.GetTableDDL` (part_003 lines 271-398): when the
column query returns no rows the function returns `nil, nil`
(`// Table doesn't exist`); otherwise it also introspects the indexes
(grouped by name, `PRIMARY` excluded, already grouped in this catalog
model). -/
def MariaDBDataBase.GetTableDDL (cat : DBState) (tableName : String) :
    Except String (Option Table) :=
  match dbLookup cat tableName with
  | none => Except.ok none
  | some tb =>
    if tb.columns.isEmpty then Except.ok none
    else
      Except.ok (some
        { structTypeName := "", name := tableName,
          columns := tb.columns.map introColumn,
          indexes := tb.indexes.map introIndex, db := mariadbDialect })

/-- ASCII lower-casing of one character. -/
def asciiLowerChar (c : Char) : Char :=
  if 'A' ≤ c ∧ c ≤ 'Z' then Char.ofNat (c.toNat + 32) else c

/-- `strings.EqualFold`, restricted to ASCII: case-insensitive equality. -/
def eqFold (a b : String) : Bool :=
  a.data.map asciiLowerChar == b.data.map asciiLowerChar

/-- The per-desired-column statements of `Table.Sync`'s `Exists` branch
(table.go lines 793-848): the first live column matching by
dialect-appropriate name comparison (`strings.EqualFold` for PostgreSQL,
exact equality otherwise) is taken; a missing column yields one
`ADD COLUMN`, a present column differing in rendered type, nullability or
default yields one `ALTER COLUMN ... TYPE`. -/
def colStmtsFor (d : Dialect) (tname : String) (exCols : List BaseColumn)
    (newCol : BaseColumn) : List Stmt :=
  match exCols.find? (fun c =>
      if d.name == "postgres" then eqFold c.name newCol.name
      else c.name == newCol.name) with
  | none => [Stmt.addColumn tname newCol.name newCol.sqlType]
  | some existingCol =>
      if existingCol.sqlType != newCol.sqlType
          || existingCol.isNullable != newCol.isNullable
          || existingCol.defaultString != newCol.defaultString then
        [Stmt.alterColumnType tname newCol.name newCol.sqlType]
      else []

/-- The per-desired-index statements of `Table.Sync`'s `Exists` branch
(table.go lines 849-910): the live indexes are keyed by `Name()` in a map
(a later duplicate name would overwrite an earlier one, hence the lookup
takes the LAST match); a name absent from the map yields one
`CREATE [UNIQUE] INDEX`, a present name whose columns are not
`IsIdentical` or whose uniqueness differs yields `DROP INDEX` of the
existing index followed by `CREATE [UNIQUE] INDEX` under the same name. -/
def indexStmtsFor (tname : String) (exIdxs : List TableIndex)
    (newIndex : TableIndex) : List Stmt :=
  match exIdxs.reverse.find? (fun i => i.Name == newIndex.Name) with
  | none =>
      [Stmt.createIndex newIndex.Name tname newIndex.columns newIndex.isUnique]
  | some existingIdx =>
      if !(existingIdx.IsIdentical newIndex.columns)
          || existingIdx.isUnique != newIndex.isUnique then
        [Stmt.dropIndex existingIdx.Name tname,
         Stmt.createIndex newIndex.Name tname newIndex.columns newIndex.isUnique]
      else []

/-- `Table.Sync` (table.go, final draft, lines 746-915), as the ordered
list of statements it executes given the introspection result.  When the
table does not exist: one `CREATE TABLE` then one `CREATE [UNIQUE] INDEX`
per declared index, in declaration order.  When it exists: the source
nests the whole index-reconciliation block INSIDE the loop over desired
columns (the closing brace at line 849), so that block runs once per
desired column; the model preserves this.  Emission decisions depend only
on the single introspection taken before any statement runs, so listing
the statements first and applying them afterwards is faithful. -/
def Table.syncStmts (t : Table) (live : Option Table) : List Stmt :=
  match live with
  | none =>
      Stmt.createTable t.name t.columns ::
        t.indexes.map (fun idx =>
          Stmt.createIndex idx.Name t.name idx.columns idx.isUnique)
  | some ex =>
      t.columns.flatMap (fun newCol =>
        colStmtsFor t.db t.name ex.columns newCol ++
          t.indexes.flatMap (indexStmtsFor t.name ex.indexes))

/-- Execution of one rendered statement by the external database (the
synchronous SQL primitive of the environment, not repository code).
Standard SQL semantics: `CREATE TABLE` installs exactly the rendered
columns (part_000's `GetCreateTableSQL` renders name, type, `NOT NULL`
and `DEFAULT`); `CREATE INDEX IF NOT EXISTS` is a no-op on a name clash;
`ADD COLUMN` renders only name and type (`CreateColumnSqlTemplate`), so
the new live column is nullable with no default; `ALTER COLUMN ... TYPE`
(`UpdateColumnSqlTemplate`) changes only the type. -/
def applyStmt (cat : DBState) (s : Stmt) : DBState :=
  match s with
  | Stmt.createTable n cols =>
      dbSet cat n
        { columns := cols.map (fun c =>
            { name := c.name, sqlType := c.sqlType, isNullable := c.isNullable,
              defaultString := c.defaultString, isPrimaryKey := c.isPrimaryKey }),
          indexes := [] }
  | Stmt.createIndex iname tname cols u =>
      match dbLookup cat tname with
      | none => cat
      | some tb =>
          if tb.indexes.any (fun i => i.name == iname) then cat
          else dbSet cat tname
            { tb with indexes := tb.indexes ++ [⟨iname, cols, u⟩] }
  | Stmt.dropIndex iname tname =>
      match dbLookup cat tname with
      | none => cat
      | some tb =>
          dbSet cat tname
            { tb with indexes := tb.indexes.filter (fun i => !(i.name == iname)) }
  | Stmt.addColumn tname cname ctype =>
      match dbLookup cat tname with
      | none => cat
      | some tb =>
          dbSet cat tname
            { tb with columns := tb.columns ++
                [{ name := cname, sqlType := ctype, isNullable := true,
                   defaultString := "" }] }
  | Stmt.alterColumnType tname cname ctype =>
      match dbLookup cat tname with
      | none => cat
      | some tb =>
          dbSet cat tname
            { tb with columns := tb.columns.map (fun c =>
                if c.name == cname then { c with sqlType := ctype } else c) }
  | Stmt.dropColumn tname cname =>
      match dbLookup cat tname with
      | none => cat
      | some tb =>
          dbSet cat tname
            { tb with columns := tb.columns.filter (fun c => !(c.name == cname)) }
  | Stmt.dropTable n => cat.filter (fun p => !(p.1 == n))
  | Stmt.insertRow _ _ _ => cat

/-- One full `Sync` call against a PostgreSQL catalog: introspect through
the converged `PostgresDataBase.GetTableDDL`, emit the statements, execute
them in order.  This introspection variant never returns an error. -/
def runSyncPg (t : Table) (cat : DBState) : List Stmt × DBState :=
  match PostgresDataBase.GetTableDDL cat t.name with
  | Except.error _ => ([], cat)
  | Except.ok live =>
      let stmts := t.syncStmts live
      (stmts, stmts.foldl applyStmt cat)

/-- One reflected struct field of the value passed to `Insert`/`Update`:
its Go field name, parsed `db` tags, and its runtime value (rendered as a
string; `BaseColumn.ConvertFromValueToSQL` is the identity). -/
structure GoField where
  name : String
  tags : TagMap
  value : String
  deriving DecidableEq, Repr

/-- The field lookup inside `Table.Insert` (table.go lines 494-519):
`reflectValue.FieldByName(col.Name())` first; when no field has that
exact name, a scan taking the first field whose `name` tag equals the
column name or whose field name equals it. -/
def findFieldForColumn (fields : List GoField) (colName : String) :
    Option GoField :=
  match fields.find? (fun f => f.name == colName) with
  | some f => some f
  | none =>
      fields.find? (fun f =>
        (match tagGet f.tags "name" with
         | some n => n == colName
         | none => false) || f.name == colName)

/-- `Table.Insert` (table.go, final draft, lines 467-552), as the
statements it executes paired with the error it returns.  The capability
gate comes FIRST: a dialect with `CanInsert() == false` produces the
error `insert operation is not supported for database: <name>` before any
reflection or SQL work.  Otherwise each non-auto-increment column with a
matching field contributes its name, a dialect placeholder (`$n` for
PostgreSQL, `?` otherwise) and its converted value; no matching columns is
the error `no columns to insert`; else one `INSERT` statement runs. -/
def Table.Insert (t : Table) (fields : List GoField) :
    List Stmt × Option String :=
  if !t.db.canInsert then
    ([], some ("insert operation is not supported for database: " ++ t.db.name))
  else
    let r := t.columns.foldl
      (fun (acc : List String × List String × List String × Nat) col =>
        if col.IsAutoIncrement then acc
        else
          match findFieldForColumn fields col.name with
          | none => acc
          | some f =>
              let ph := if t.db.name == "postgres" then "$" ++ toString acc.2.2.2
                        else "?"
              let nextIdx := if t.db.name == "postgres" then acc.2.2.2 + 1
                             else acc.2.2.2
              (acc.1 ++ [col.name], acc.2.1 ++ [ph], acc.2.2.1 ++ [f.value],
               nextIdx))
      ([], [], [], 1)
    if r.1.isEmpty then ([], some "no columns to insert")
    else ([Stmt.insertRow t.name r.1 r.2.2.1], none)

/-- `Table.Drop` (table.go): a single `DROP TABLE IF EXISTS` statement
(`DropTableSql`), never invoked by `Sync`. -/
def Table.Drop (t : Table) : List Stmt :=
  [Stmt.dropTable t.name]

/-- Fixture: a desired model with one `BIGINT NOT NULL` column `id` and
one declared (named) index over it, targeting PostgreSQL. -/
def c1Column : BaseColumn :=
  { name := "id", sqlType := "BIGINT", isNullable := false }

/-- Fixture: the desired table for the idempotence trace. -/
def c1Table : Table :=
  { structTypeName := "User", name := "users", columns := [c1Column],
    indexes := [NewTableIndex ⟨"User", "users"⟩ "idx_users_id" ["id"] false],
    db := postgresDialect }

/-- Fixture: a column declaring membership of index `idx1` with priority 2. -/
def c3ColA : BaseColumn :=
  { name := "A", sqlType := "INTEGER", tags := [("index", "idx1,priority:2")] }

/-- Fixture: a column declaring membership of index `idx1` with priority 5. -/
def c3ColB : BaseColumn :=
  { name := "B", sqlType := "INTEGER", tags := [("index", "idx1,priority:5")] }

/-- Fixture: a table whose two columns share the declared index `idx1`. -/
def c3Table : Table :=
  { structTypeName := "M", name := "m", columns := [c3ColA, c3ColB],
    indexes := [], db := postgresDialect }

/-- Fixture: a table already holding an index over the single column `a`. -/
def c10Table : Table :=
  { structTypeName := "T", name := "t", columns := [],
    indexes := [NewTableIndex ⟨"T", "t"⟩ "i" ["a"] false],
    db := postgresDialect }

/-- Fixture: a table with no indexes yet. -/
def c10EmptyTable : Table :=
  { structTypeName := "T", name := "t", columns := [], indexes := [],
    db := postgresDialect }

/-- Fixture: a dialect lacking the Insert capability (admitted by the
`DBInterface` contract, though both shipped dialects return `true`). -/
def noInsertDialect : Dialect :=
  { name := "limited", canInsert := false, canInsertOrUpdate := false,
    canUpdate := false, canReturnRowsAffected := false,
    canRenameTable := false }

/-- Fixture: a table bound to the no-Insert dialect. -/
def noInsertTable : Table :=
  { structTypeName := "T", name := "t", columns := [], indexes := [],
    db := noInsertDialect }

/-!  ## Theorems  -/

theorem sortStrings_perm (l : List String) : (sortStrings l).Perm l :=
  List.perm_insertionSort _ l

theorem sortStrings_sorted (l : List String) :
    List.Sorted (fun a b : String => goStrLe a b = true) (sortStrings l) :=
  List.sorted_insertionSort _ l

theorem sortStrings_length (l : List String) :
    (sortStrings l).length = l.length :=
  (sortStrings_perm l).length_eq

theorem sortStrings_eq_iff {a b : List String} :
    sortStrings a = sortStrings b ↔ a.Perm b := by
  constructor
  · intro h
    exact ((sortStrings_perm a).symm.trans (h ▸ sortStrings_perm b))
  · intro h
    exact List.eq_of_perm_of_sorted
      (((sortStrings_perm a).trans h).trans (sortStrings_perm b).symm)
      (sortStrings_sorted a) (sortStrings_sorted b)

theorem isIdentical_eq_true_iff {i : TableIndex} {cs : List String} :
    i.IsIdentical cs = true ↔ i.columns = sortStrings cs := by
  unfold TableIndex.IsIdentical
  split
  next hne =>
    constructor
    · intro h
      exact absurd h (by simp)
    · intro h
      exact absurd (by rw [h, sortStrings_length]) hne
  next hne =>
    exact beq_iff_eq

theorem newTableIndex_isIdentical_iff (r : TableRef) (n : String)
    (cols cs : List String) (u : Bool) :
    (NewTableIndex r n cols u).IsIdentical cs = true ↔ cols.Perm cs := by
  rw [isIdentical_eq_true_iff]
  show sortStrings cols = sortStrings cs ↔ _
  exact sortStrings_eq_iff

/-- C1: the claim says a second `Sync` with the same desired model issues
zero DDL statements; on the code it fails.  For the PostgreSQL dialect and
a desired model with one column and one declared index, starting from an
empty database, the first `Sync` completes successfully (`CREATE TABLE`
then `CREATE INDEX`), yet the second `Sync` issues the
`CREATE INDEX IF NOT EXISTS` statement again — `PostgresDataBase.
GetTableDDL` (part_000) introspects no indexes, so every declared index is
treated as missing on every run and the DDL count never reaches zero. -/
theorem sync_postgres_second_run_emits_ddl :
    (runSyncPg c1Table []).1
      = [Stmt.createTable "users" [c1Column],
         Stmt.createIndex "idx_users_id" "users" ["id"] false]
    ∧ (runSyncPg c1Table (runSyncPg c1Table []).2).1
      = [Stmt.createIndex "idx_users_id" "users" ["id"] false] := by
  constructor
  · decide
  · decide

/-- C3: the claim (and the function's own comment) says two columns tagged
into the same named index form one composite index over both columns,
priority-descending; on the code it fails.  `Table.constructIndex` assigns
a FRESH single-entry map at the index name for every member column, so the
second column's entry replaces the first and the resulting index `idx1`
contains only column `B` — column `A` is lost entirely. -/
theorem constructIndex_composite_collapses :
    (c3Table.constructIndex).map
      (fun t => t.indexes.map (fun i => (i.name, i.columns, i.isUnique)))
      = Except.ok [("idx1", ["B"], false)] := rfl

/-- C6: the type mapping sends an unsigned-32-bit field to `BIGINT` under
the PostgreSQL dialect and to `INT UNSIGNED` under the MariaDB dialect,
and an unsigned-64-bit field to `BIGINT` (the largest signed type) under
PostgreSQL without error, for every column name, tag set and pointer
flag. -/
theorem unsigned_kind_type_mapping (n : String) (tags : TagMap) (p : Bool) :
    (PostgresDataBase.GetColumnDefinitionByType .u32 n tags p).map
        (fun c => c.sqlType) = Except.ok "BIGINT"
    ∧ (MariaDBDataBase.GetColumnDefinitionByType .u32 n tags p).map
        (fun c => c.sqlType) = Except.ok "INT UNSIGNED"
    ∧ (PostgresDataBase.GetColumnDefinitionByType .u64 n tags p).map
        (fun c => c.sqlType) = Except.ok "BIGINT" :=
  ⟨rfl, rfl, rfl⟩

/-- C7: the claim says every dialect's introspection of a missing table
returns nil with no error; the earlier PostgreSQL draft
(db_postgres.go lines 261-263) instead returns the non-nil error
`no columns found for table <name>`, while the converged PostgreSQL
driver (part_000) and the MariaDB driver (part_003) return `nil, nil`. -/
theorem getTableDDL_missing_table :
    PostgresDataBase.GetTableDDLEarlyDraft [] "users"
      = Except.error "no columns found for table users"
    ∧ PostgresDataBase.GetTableDDL [] "users" = Except.ok none
    ∧ MariaDBDataBase.GetTableDDL [] "users" = Except.ok none :=
  ⟨rfl, rfl, rfl⟩

/-- C9: the claim says a primary-key column is never nullable; the
PostgreSQL column constructor (part_000) violates it.  With tags
`nullable:true; primary:true` it produces a column that is both a primary
key and nullable, while the MariaDB constructor (part_003) and the shared
`NewBaseColumn` (db_postgres.go) both force nullability off for primary
keys on the same input. -/
theorem pg_primary_key_column_can_be_nullable :
    (PostgresDataBase.GetColumnDefinitionByType .i64 "ID"
        [("nullable", "true"), ("primary", "true")] false).map
        (fun c => (c.isPrimaryKey, c.isNullable)) = Except.ok (true, true)
    ∧ (MariaDBDataBase.GetColumnDefinitionByType .i64 "ID"
        [("nullable", "true"), ("primary", "true")] false).map
        (fun c => (c.isPrimaryKey, c.isNullable)) = Except.ok (true, false)
    ∧ (NewBaseColumn "ID" "BIGINT"
        [("nullable", "true"), ("primary", "true")] false).isPrimaryKey = true
    ∧ (NewBaseColumn "ID" "BIGINT"
        [("nullable", "true"), ("primary", "true")] false).isNullable = false :=
  ⟨rfl, rfl, rfl, rfl⟩

theorem string_length_data (s : String) : s.length = s.data.length := rfl

theorem goTruncate_length (s : String) (n : Nat) :
    (goTruncate s n).length = min n s.length := by
  show (s.data.take n).length = min n s.length
  rw [List.length_take, string_length_data]

/-- C4 counterexample: the claim says `IsIdentical` is true exactly when
the column SETS agree ignoring order; with repeated names it is not.  The
index built from `["a", "a", "b"]` and the list `["a", "b", "b"]` have
equal column sets, yet `IsIdentical` reports `false` (their sorted
sequences differ). -/
theorem isIdentical_false_on_equal_sets :
    (NewTableIndex ⟨"T", "t"⟩ "" ["a", "a", "b"] false).IsIdentical
        ["a", "b", "b"] = false
    ∧ (["a", "a", "b"] : List String).toFinset = ["a", "b", "b"].toFinset := by
  constructor
  · decide
  · decide

/-- C4 (amended): `IsIdentical` on an index built by `NewTableIndex` from
`cols` reports true exactly when `cols` and the given list are equal as
MULTISETS (ignoring order); for duplicate-free lists this coincides with
set equality, so `["a", "b"]` and `["b", "a"]` are reported identical. -/
theorem isIdentical_iff_multiset_eq (r : TableRef) (n : String)
    (cols cs : List String) (u : Bool) :
    (NewTableIndex r n cols u).IsIdentical cs = true
      ↔ (cols : Multiset String) = (cs : Multiset String) := by
  rw [newTableIndex_isIdentical_iff]
  exact Multiset.coe_eq_coe.symm

/-- C5 counterexample: the claim says the unnamed default is
`idx_<table>_<firstcolumn>`; the code uses the owning STRUCT TYPE's name
(`i.table.ConstructType().Name()`), not the table's name.  For the table
named `test_users` built from struct `TestUser`, the default is
`idx_TestUser_id`, not `idx_test_users_id`. -/
theorem indexName_not_table_name :
    (NewTableIndex ⟨"TestUser", "test_users"⟩ "" ["id"] false).Name
        = "idx_TestUser_id"
    ∧ (NewTableIndex ⟨"TestUser", "test_users"⟩ "" ["id"] false).Name
        ≠ "idx_test_users_id" := by
  constructor
  · decide
  · decide

/-- C5 (amended): for an index constructed without an explicit name,
`Name()` is `idx_<structTypeName>_<c0>` where `c0` is the first element of
the stored (lexicographically sorted) column sequence; when that string
does not exceed 64 characters it is returned as is, and when it does it
is truncated to exactly 64 characters. -/
theorem indexName_default_formula (r : TableRef) (c : String)
    (rest : List String) (u : Bool) :
    ((("idx_" ++ r.structTypeName ++ "_" ++ (sortStrings (c :: rest)).headD "").length ≤ 64 →
       (NewTableIndex r "" (c :: rest) u).Name
         = "idx_" ++ r.structTypeName ++ "_" ++ (sortStrings (c :: rest)).headD "")
     ∧ (("idx_" ++ r.structTypeName ++ "_" ++ (sortStrings (c :: rest)).headD "").length > 64 →
       (NewTableIndex r "" (c :: rest) u).Name
         = goTruncate ("idx_" ++ r.structTypeName ++ "_" ++ (sortStrings (c :: rest)).headD "") 64
       ∧ ((NewTableIndex r "" (c :: rest) u).Name).length = 64)) := by
  have hname : (NewTableIndex r "" (c :: rest) u).Name =
      (if ("idx_" ++ r.structTypeName ++ "_" ++ (sortStrings (c :: rest)).headD "").length > IndexLimit
       then goTruncate ("idx_" ++ r.structTypeName ++ "_" ++ (sortStrings (c :: rest)).headD "") IndexLimit
       else "idx_" ++ r.structTypeName ++ "_" ++ (sortStrings (c :: rest)).headD "") := by
    simp [TableIndex.Name, NewTableIndex]
  constructor
  · intro h
    rw [hname, if_neg (by unfold IndexLimit; omega)]
  · intro h
    rw [hname, if_pos (by unfold IndexLimit; omega)]
    refine ⟨rfl, ?_⟩
    rw [goTruncate_length]
    unfold IndexLimit
    omega

/-- C5 amended witness: a 60-character struct type name makes the default
68 characters long, and the returned name has exactly 64 characters. -/
theorem indexName_default_formula_witness :
    ((NewTableIndex
        ⟨"AAAAAAAAAAAAAAAAAAAAAAAAAAAAAAAAAAAAAAAAAAAAAAAAAAAAAAAAAAAA", "t"⟩
        "" ["col"] false).Name).length = 64 := by
  have h := (indexName_default_formula
      ⟨"AAAAAAAAAAAAAAAAAAAAAAAAAAAAAAAAAAAAAAAAAAAAAAAAAAAAAAAAAAAA", "t"⟩
      "col" [] false).2 (by decide)
  exact h.2

/-- C8: `Insert` against a dialect whose `CanInsert()` is `false` fails
with the capability error and executes no statement at all. -/
theorem insert_capability_gate (t : Table) (fields : List GoField)
    (h : t.db.canInsert = false) :
    t.Insert fields
      = ([], some ("insert operation is not supported for database: "
          ++ t.db.name)) := by
  simp [Table.Insert, h]

/-- C8 witness: a concrete dialect with `canInsert = false` (admitted by
the interface) makes `Insert` fail with the capability error and an empty
statement list. -/
theorem insert_capability_gate_witness :
    noInsertTable.db.canInsert = false
    ∧ noInsertTable.Insert []
        = ([], some ("insert operation is not supported for database: "
            ++ noInsertTable.db.name)) :=
  ⟨rfl, insert_capability_gate noInsertTable [] rfl⟩

/-- C10 counterexample: the claim says `AddIndex` returns `false` when the
table already contains an index whose column SET equals the given list's
set ignoring order; with repeated names it does not.  `c10Table` already
holds an index over `["a"]`, whose column set equals that of
`["a", "a"]`, yet `AddIndex false ["a", "a"]` returns `true` and appends
a second index. -/
theorem addIndex_true_on_equal_sets :
    (c10Table.AddIndex false ["a", "a"]).2 = true
    ∧ (c10Table.AddIndex false ["a", "a"]).1.indexes.length = 2
    ∧ c10Table.indexes.map (fun i => i.columns.toFinset)
        = [(["a", "a"] : List String).toFinset] := by
  refine ⟨by decide, by decide, by decide⟩

/-- C10 (amended): on a table whose stored index column sequences are
sorted (as every index built by `NewTableIndex` is), `AddIndex` returns
`false` and leaves the table unchanged exactly when some existing index's
column MULTISET equals that of the given list; otherwise it appends
exactly one new index over those columns and returns `true`. -/
theorem addIndex_multiset_dedup (t : Table) (u : Bool) (cols : List String)
    (hs : ∀ i ∈ t.indexes, i.columns = sortStrings i.columns) :
    (((∃ i ∈ t.indexes, i.columns.Perm cols) → t.AddIndex u cols = (t, false))
     ∧ ((∀ i ∈ t.indexes, ¬ i.columns.Perm cols) →
         (t.AddIndex u cols).2 = true
         ∧ (t.AddIndex u cols).1.indexes
             = t.indexes ++ [NewTableIndex t.ref "" cols u])) := by
  have key : ∀ i ∈ t.indexes, (i.IsIdentical cols = true ↔ i.columns.Perm cols) := by
    intro i hi
    rw [isIdentical_eq_true_iff]
    constructor
    · intro h
      exact sortStrings_eq_iff.mp ((hs i hi).symm.trans h)
    · intro h
      exact (hs i hi).trans (sortStrings_eq_iff.mpr h)
  constructor
  · rintro ⟨i, hi, hp⟩
    have hany : t.indexes.any (fun i => i.IsIdentical cols) = true :=
      List.any_eq_true.mpr ⟨i, hi, (key i hi).mpr hp⟩
    simp [Table.AddIndex, Table.addIndexWithName, hany]
  · intro hnone
    have hany : t.indexes.any (fun i => i.IsIdentical cols) = false := by
      rw [List.any_eq_false]
      intro i hi hcontra
      exact hnone i hi ((key i hi).mp hcontra)
    simp [Table.AddIndex, Table.addIndexWithName, hany]

/-- C10 amended witness: on a table with no indexes, `AddIndex` appends
the new index and returns `true`. -/
theorem addIndex_multiset_dedup_witness :
    (c10EmptyTable.AddIndex false ["b", "a"]).2 = true
    ∧ (c10EmptyTable.AddIndex false ["b", "a"]).1.indexes
        = [NewTableIndex c10EmptyTable.ref "" ["b", "a"] false] := by
  have h := (addIndex_multiset_dedup c10EmptyTable false ["b", "a"]
      (by intro i hi; simp [c10EmptyTable] at hi)).2
      (by intro i hi; simp [c10EmptyTable] at hi)
  exact ⟨h.1, by rw [h.2]; rfl⟩

theorem colStmtsFor_shape {d : Dialect} {tn : String}
    {exCols : List BaseColumn} {c : BaseColumn} {s : Stmt}
    (h : s ∈ colStmtsFor d tn exCols c) :
    (∃ a b, s = Stmt.addColumn tn a b)
      ∨ (∃ a b, s = Stmt.alterColumnType tn a b) := by
  unfold colStmtsFor at h
  split at h
  · simp at h
    exact Or.inl ⟨_, _, h⟩
  · split at h
    · simp at h
      exact Or.inr ⟨_, _, h⟩
    · simp at h

theorem indexStmtsFor_shape {tn : String} {exIdxs : List TableIndex}
    {ni : TableIndex} {s : Stmt} (h : s ∈ indexStmtsFor tn exIdxs ni) :
    (∃ cols u, s = Stmt.createIndex ni.Name tn cols u)
      ∨ s = Stmt.dropIndex ni.Name tn := by
  unfold indexStmtsFor at h
  split at h
  next heq =>
    simp at h
    exact Or.inl ⟨_, _, h⟩
  next existingIdx heq =>
    have hx : existingIdx.Name = ni.Name := by
      have := List.find?_some heq
      simpa using this
    split at h
    · simp at h
      rcases h with h | h
      · right
        rw [h, hx]
      · exact Or.inl ⟨_, _, h⟩
    · simp at h

/-- C2: a `Sync` pass never emits a `DROP COLUMN` statement, and every
`DROP INDEX` it emits names an index from the desired model's declared
index set (the pass drops an index only to recreate one under the same
declared name), for every desired table and every introspection result. -/
theorem sync_nondestructive (t : Table) (live : Option Table) (s : Stmt)
    (hs : s ∈ t.syncStmts live) :
    (∀ tn cn, s ≠ Stmt.dropColumn tn cn)
    ∧ (∀ iname tn, s = Stmt.dropIndex iname tn →
        iname ∈ t.indexes.map TableIndex.Name) := by
  unfold Table.syncStmts at hs
  cases live with
  | none =>
    rcases List.mem_cons.mp hs with h | h
    · subst h
      refine ⟨fun tn cn => by simp, fun iname tn hh => by simp at hh⟩
    · rcases List.mem_map.mp h with ⟨idx, hidx, heq⟩
      refine ⟨fun tn cn hh => ?_, fun iname tn hh => ?_⟩
      · rw [← heq] at hh
        simp at hh
      · rw [← heq] at hh
        simp at hh
  | some ex =>
    rcases List.mem_flatMap.mp hs with ⟨col, hcol, hmem⟩
    rcases List.mem_append.mp hmem with h | h
    · rcases colStmtsFor_shape h with ⟨a, b, rfl⟩ | ⟨a, b, rfl⟩ <;>
        exact ⟨fun tn cn => by simp, fun iname tn hh => by simp at hh⟩
    · rcases List.mem_flatMap.mp h with ⟨ni, hni, hsm⟩
      rcases indexStmtsFor_shape hsm with ⟨cols, u, rfl⟩ | rfl
      · exact ⟨fun tn cn => by simp, fun iname tn hh => by simp at hh⟩
      · refine ⟨fun tn cn => by simp, fun iname tn hh => ?_⟩
        simp only [Stmt.dropIndex.injEq] at hh
        rw [← hh.1]
        exact List.mem_map.mpr ⟨ni, hni, rfl⟩

/-- C2 witness: a concrete statement of a concrete `Sync` pass, with the
non-destructiveness conclusions instantiated. -/
theorem sync_nondestructive_witness :
    (Stmt.createTable "users" [c1Column] ∈ c1Table.syncStmts none)
    ∧ ∀ tn cn, Stmt.createTable "users" [c1Column] ≠ Stmt.dropColumn tn cn := by
  have hm : Stmt.createTable "users" [c1Column] ∈ c1Table.syncStmts none := by
    decide
  exact ⟨hm, (sync_nondestructive c1Table none _ hm).1⟩

end AaronSql
